import Mathlib

/-!
Verification of the `normurl` Go package (src/normurl.go).

The package defines a `Locator`: either a file locator (absolute native
path, empty scheme) or a remote locator (parsed http/https URL), with
operations `New`, `Resolve`, `SetQueryParam`, `String`, `MarshalJSON`,
`UnmarshalJSON`.

The package delegates URL syntax to Go's `net/url` and path handling to
Go's `path/filepath`.  Those are external collaborators (spec section 6,
"consumed primitives"), modelled here at the character level, faithful to
the Go standard library's documented behaviour with these simplifications:

* percent-encoding/decoding of path, host and fragment components is not
  modelled: components are kept verbatim (the query codec's escaping is
  modelled, since `SetQueryParam` re-encodes through it);
* the authority is kept as a single `host` field (userinfo and port are
  not split off, and host-character validation is not modelled);
* strings are sequences of characters, standing for the byte strings of
  the Go implementation (faithful on ASCII, which all claims use);
* the host platform is POSIX (`runtime.GOOS != "windows"`), so the
  Windows-only branch of `New` is dead code, and `path/filepath` uses the
  slash separator and POSIX `IsAbs`/`Clean`/`Dir`/`Join`.
-/

deriving instance DecidableEq for Except

namespace Normurl

/-! ### Character-list helpers (Go `strings` primitives) -/

/-- `strings.HasPrefix` on character lists (first argument: the candidate
prefix). -/
def hasPre : List Char → List Char → Bool
  | [], _ => true
  | _ :: _, [] => false
  | a :: as, b :: bs => a = b && hasPre as bs

/-- `strings.Cut` at the first occurrence of `c`: returns the part before,
and `some` part after when `c` occurs. -/
def cutFirst (c : Char) : List Char → List Char × Option (List Char)
  | [] => ([], none)
  | x :: xs =>
    if x = c then ([], some xs)
    else
      let r := cutFirst c xs
      (x :: r.1, r.2)

/-- Split at the first occurrence of `c`, keeping `c` with the tail
(Go's `authority[:i], authority[i:]` idiom). -/
def spanNe (c : Char) : List Char → List Char × List Char
  | [] => ([], [])
  | x :: xs =>
    if x = c then ([], x :: xs)
    else
      let r := spanNe c xs
      (x :: r.1, r.2)

/-- Drop the maximal run of non-`'/'` characters at the end (Go's
`path[:strings.LastIndex(path, "/")+1]`). -/
def dropTrailNonSlash (l : List Char) : List Char :=
  (l.reverse.dropWhile (fun c => !(c = '/'))).reverse

/-- Split on a separator character (Go `strings.Split`); the result is
nonempty. -/
def splitChar (sep : Char) : List Char → List (List Char)
  | [] => [[]]
  | c :: cs =>
    let r := splitChar sep cs
    if c = sep then [] :: r
    else
      match r with
      | s :: t => (c :: s) :: t
      | [] => [[c]]

/-- Split on `'/'` (Go `strings.Split(s, "/")`). -/
def splitSlash : List Char → List (List Char) := splitChar '/'

/-- Interleave `'/'` between the pieces (Go `strings.Join(l, "/")`). -/
def joinSlash : List (List Char) → List Char
  | [] => []
  | [x] => x
  | x :: xs => x ++ '/' :: joinSlash xs

/-- Go `stringContainsCTLByte`: any byte below space, or DEL. -/
def hasCTL (l : List Char) : Bool :=
  l.any (fun c => c.toNat < 32 || c.toNat == 127)

/-! ### The generic URL representation (Go `net/url.URL`) -/

/-- Go's `url.URL`, restricted to the fields the package reads or writes.
`opq` is Go's `URL.Opaque`; `host` holds the whole authority. -/
structure URL where
  scheme : String := ""
  opq : String := ""
  host : String := ""
  path : String := ""
  rawQuery : String := ""
  fragment : String := ""
  forceQuery : Bool := false
  omitHost : Bool := false
deriving Repr, DecidableEq

/-- Go `getScheme` inner loop: walk the string; alpha continues; digit or
`+`/`-`/`.` continues except at position 0; `:` ends the scheme; any other
character means the string has no scheme. -/
def isSchemeLetter (c : Char) : Bool :=
  ('a' ≤ c && c ≤ 'z') || ('A' ≤ c && c ≤ 'Z')

/-- Scheme characters allowed after the first position. -/
def isSchemeExtra (c : Char) : Bool :=
  ('0' ≤ c && c ≤ '9') || c = '+' || c = '-' || c = '.'

/-- Core of Go's `getScheme`; `seen` is the scheme prefix consumed so far. -/
def getSchemeCore : List Char → List Char → Option (List Char × List Char)
  | _, [] => none
  | seen, c :: cs =>
    if isSchemeLetter c then getSchemeCore (seen ++ [ c ]) cs
    else if isSchemeExtra c then
      if seen.isEmpty then none else getSchemeCore (seen ++ [ c ]) cs
    else if c = ':' then some (seen, cs)
    else none

/-- Go `getScheme`: split `scheme:rest`; a leading `:` is an error; a
string with no valid scheme prefix is all rest. -/
def getScheme (l : List Char) : Except String (List Char × List Char) :=
  match l with
  | ':' :: _ => .error "missing protocol scheme"
  | _ =>
    match getSchemeCore [] l with
    | some (sch, rest) => .ok (sch, rest)
    | none => .ok ([], l)

/-- Go `parse` query split: a single trailing `?` sets `ForceQuery`;
otherwise cut at the first `?`.  Returns `(rest, forceQuery, rawQuery)`. -/
def splitQuery (l : List Char) : List Char × Bool × List Char :=
  if l.getLast? = some '?' ∧ l.count '?' = 1 then (l.dropLast, true, [])
  else
    match cutFirst '?' l with
    | (bef, none) => (bef, false, [])
    | (bef, some aft) => (bef, false, aft)

/-- Go `net/url.parse` with `viaRequest = false`, on the fragment-free
part of the input.  Mirrors the Go control flow: control-character check,
the `"*"` special case, scheme splitting and lowercasing, query
splitting, the opaque case, the colon-in-first-segment error, authority
parsing, `OmitHost`, and the path. -/
def parseNoFrag (l : List Char) : Except String URL :=
  if hasCTL l then .error "net/url: invalid control character in URL"
  else if l = [ '*' ] then .ok { path := "*" }
  else
    match getScheme l with
    | .error e => .error e
    | .ok (schemeCs, rest0) =>
      let scheme := String.mk (schemeCs.map Char.toLower)
      let q := splitQuery rest0
      let rest1 := q.1
      let forceQuery := q.2.1
      let rawQuery := String.mk q.2.2
      if hasPre [ '/' ] rest1 = false ∧ scheme ≠ "" then
        .ok { scheme := scheme, opq := String.mk rest1,
              rawQuery := rawQuery, forceQuery := forceQuery }
      else if hasPre [ '/' ] rest1 = false ∧ (spanNe '/' rest1).1.contains ':' then
        .error "first path segment in URL cannot contain colon"
      else if (scheme ≠ "" ∨ hasPre ('/' :: '/' :: '/' :: []) rest1 = false)
              ∧ hasPre ('/' :: '/' :: []) rest1 = true then
        let ar := spanNe '/' (rest1.drop 2)
        .ok { scheme := scheme, host := String.mk ar.1, path := String.mk ar.2,
              rawQuery := rawQuery, forceQuery := forceQuery }
      else
        .ok { scheme := scheme, path := String.mk rest1,
              rawQuery := rawQuery, forceQuery := forceQuery,
              omitHost := decide (scheme ≠ "") && hasPre [ '/' ] rest1 }

/-- Go `net/url.Parse`: cut the fragment at the first `#`, parse the rest,
then store the fragment (verbatim in this model). -/
def parse (rawURL : String) : Except String URL :=
  match cutFirst '#' rawURL.data with
  | (pre, frag) =>
    match parseNoFrag pre with
    | .error e => .error e
    | .ok u =>
      match frag with
      | none => .ok u
      | some f => .ok { u with fragment := String.mk f }

/-- The `?query` suffix of `URL.String`. -/
def querySuffix (u : URL) : String :=
  if u.forceQuery ∨ u.rawQuery ≠ "" then "?" ++ u.rawQuery else ""

/-- The `#fragment` suffix of `URL.String`. -/
def fragSuffix (u : URL) : String :=
  if u.fragment ≠ "" then "#" ++ u.fragment else ""

/-- Go `url.URL.String` (components verbatim in this model): scheme with
colon; the opaque form short-circuits host and path; otherwise the
`//host` part (honouring `OmitHost`), a separating slash when a relative
path follows a host, the `./` guard for a colon in the first path segment
of an otherwise bare path, the path, then query and fragment. -/
def URL.string (u : URL) : String :=
  let buf1 : String := if u.scheme ≠ "" then u.scheme ++ ":" else ""
  if u.opq ≠ "" then buf1 ++ u.opq ++ querySuffix u ++ fragSuffix u
  else
    let hostPart : String :=
      if u.scheme ≠ "" ∨ u.host ≠ "" then
        if u.omitHost ∧ u.host = "" then ""
        else (if u.host ≠ "" ∨ u.path ≠ "" then "//" else "") ++ u.host
      else ""
    let sep : String :=
      if u.path ≠ "" ∧ u.path.data.headD ' ' ≠ '/' ∧ u.host ≠ "" then "/" else ""
    let buf2 := buf1 ++ hostPart ++ sep
    let dotSlash : String :=
      if buf2 = "" ∧ (spanNe '/' u.path.data).1.contains ':' then "./" else ""
    buf2 ++ dotSlash ++ u.path ++ querySuffix u ++ fragSuffix u

/-! ### POSIX `path/filepath` -/

/-- POSIX `filepath.IsAbs`: starts with a slash. -/
def isAbs (s : String) : Bool := hasPre [ '/' ] s.data

/-- One step of `filepath.Clean`'s element processing: drop empty and `.`
elements; `..` pops a poppable element, is dropped at the root, and is
kept when nothing can be popped in a relative path.  `out` is reversed. -/
def cleanStep (rooted : Bool) (out : List (List Char)) (seg : List Char) :
    List (List Char) :=
  if seg = [] ∨ seg = [ '.' ] then out
  else if seg = ('.' :: '.' :: []) then
    match out with
    | [] => if rooted then [] else [seg]
    | prev :: rest => if prev = ('.' :: '.' :: []) then seg :: out else rest
  else seg :: out

/-- POSIX `filepath.Clean` (lexical simplification; empty result becomes
`"."`). -/
def pathClean (s : String) : String :=
  let l := s.data
  let rooted := hasPre [ '/' ] l
  let out := ((splitSlash l).foldl (cleanStep rooted) []).reverse
  let core := joinSlash out
  let r := (if rooted then [ '/' ] else []) ++ core
  if r = [] then "." else String.mk r

/-- POSIX `filepath.Dir`: drop the final non-slash run, then `Clean`. -/
def pathDir (s : String) : String :=
  pathClean (String.mk (dropTrailNonSlash s.data))

/-- POSIX `filepath.Join` of two elements: empty elements are skipped and
the joined string is `Clean`ed; all-empty input gives the empty string. -/
def pathJoin (a b : String) : String :=
  if a = "" then (if b = "" then "" else pathClean b)
  else pathClean (a ++ "/" ++ b)

/-! ### `net/url` reference resolution -/

/-- Go `net/url.resolvePath` (RFC 3986 merge-and-remove-dot-segments):
splice `ref` onto `base`'s directory, then process `.`/`..` segments,
forcing a leading slash and keeping a trailing slash after a final dot
segment. -/
def resolvePath (bas ref : String) : String :=
  let full : List Char :=
    if ref = "" then bas.data
    else if hasPre [ '/' ] ref.data = false then dropTrailNonSlash bas.data ++ ref.data
    else ref.data
  if full = [] then ""
  else
    let src := splitSlash full
    let dst := src.foldl
      (fun dst seg =>
        if seg = [ '.' ] then dst
        else if seg = ('.' :: '.' :: []) then dst.dropLast
        else dst ++ [seg])
      ([] : List (List Char))
    let dst :=
      match src.getLast? with
      | some lastSeg =>
        if lastSeg = [ '.' ] ∨ lastSeg = ('.' :: '.' :: []) then dst ++ [[]] else dst
      | none => dst
    let joined := joinSlash dst
    let trimmed := if hasPre [ '/' ] joined then joined.drop 1 else joined
    String.mk ('/' :: trimmed)

/-- Go `url.URL.ResolveReference` (without userinfo): an absolute or
network-path reference wins outright; an opaque reference clears host and
path; an empty reference inherits query (and fragment when absent);
otherwise merge paths against the base. -/
def resolveReference (u ref : URL) : URL :=
  let url0 := if ref.scheme = "" then { ref with scheme := u.scheme } else ref
  if ref.scheme ≠ "" ∨ ref.host ≠ "" then
    { url0 with path := resolvePath ref.path "" }
  else if ref.opq ≠ "" then
    { url0 with host := "", path := "" }
  else
    let url1 :=
      if ref.path = "" ∧ ref.forceQuery = false ∧ ref.rawQuery = "" then
        let u1 := { url0 with rawQuery := u.rawQuery }
        if ref.fragment = "" then { u1 with fragment := u.fragment } else u1
      else url0
    { url1 with host := u.host, path := resolvePath u.path ref.path }

/-! ### `net/url` query codec (`Values`, `ParseQuery`, `Encode`) -/

/-- Hex digit value, for percent-decoding. -/
def hexVal (c : Char) : Option Nat :=
  if '0' ≤ c ∧ c ≤ '9' then some (c.toNat - '0'.toNat)
  else if 'a' ≤ c ∧ c ≤ 'f' then some (c.toNat - 'a'.toNat + 10)
  else if 'A' ≤ c ∧ c ≤ 'F' then some (c.toNat - 'A'.toNat + 10)
  else none

/-- Go `url.QueryUnescape` on a component: `%XX` decodes (an invalid
escape is an error, reported as `none`), `+` becomes space. -/
def queryUnescape : List Char → Option (List Char)
  | [] => some []
  | '%' :: h1 :: h2 :: rest =>
    match hexVal h1, hexVal h2 with
    | some a, some b =>
      match queryUnescape rest with
      | some r => some (Char.ofNat (16 * a + b) :: r)
      | none => none
    | _, _ => none
  | '%' :: _ => none
  | '+' :: rest =>
    match queryUnescape rest with
    | some r => some (' ' :: r)
    | none => none
  | c :: rest =>
    if c = '%' ∨ c = '+' then none
    else
      match queryUnescape rest with
      | some r => some (c :: r)
      | none => none

/-- Characters `QueryEscape` leaves alone: alphanumerics and `-_.~`. -/
def isUnreserved (c : Char) : Bool :=
  ('a' ≤ c && c ≤ 'z') || ('A' ≤ c && c ≤ 'Z') || ('0' ≤ c && c ≤ '9') ||
    c = '-' || c = '_' || c = '.' || c = '~'

/-- Upper-case hex digit. -/
def hexDigit (n : Nat) : Char :=
  ("0123456789ABCDEF".data).getD n '0'

/-- Go `url.QueryEscape` of one character: space becomes `+`, unreserved
characters stay, the rest become `%XX` (characters above `0xFF` stand for
multi-byte sequences, out of this model's scope, and are kept verbatim). -/
def queryEscapeChar (c : Char) : List Char :=
  if c = ' ' then [ '+' ]
  else if isUnreserved c then [ c ]
  else if c.toNat < 256 then
    '%' :: hexDigit (c.toNat / 16) :: hexDigit (c.toNat % 16) :: []
  else [ c ]

/-- Go `url.QueryEscape`. -/
def queryEscape (s : String) : String :=
  String.mk (s.data.flatMap queryEscapeChar)

/-- Go `url.ParseQuery` as consumed by `URL.Query()`: split on `&`, skip
empty pieces and pieces containing `;`, cut each piece at the first `=`,
unescape key and value, skipping the pair when unescaping fails.  Pairs
are kept in input order. -/
def parseQueryPiece (piece : List Char) : List (String × String) :=
  if piece = [] ∨ piece.contains ';' then []
  else
    let kv := cutFirst '=' piece
    let vraw := match kv.2 with | some v => v | none => []
    match queryUnescape kv.1, queryUnescape vraw with
    | some k, some v => [(String.mk k, String.mk v)]
    | _, _ => []

/-- See `parseQueryPiece`; the whole query is split on `&` first (Go's
`strings.Cut` loop visits exactly these pieces). -/
def parseQueryList (l : List Char) : List (String × String) :=
  (splitChar '&' l).flatMap parseQueryPiece

/-- Go `Values.Set`: replace every pair for the key by the single new
pair (position is irrelevant: `Encode` sorts by key). -/
def valuesSet (q : List (String × String)) (key value : String) :
    List (String × String) :=
  q.filter (fun p => !(p.1 = key)) ++ [(key, value)]

/-- Go `Values.Del`: remove every pair for the key. -/
def valuesDel (q : List (String × String)) (key : String) :
    List (String × String) :=
  q.filter (fun p => !(p.1 = key))

/-- Byte-lexicographic strict order on keys (what `sort.Strings` uses). -/
def charListLt : List Char → List Char → Bool
  | [], [] => false
  | [], _ :: _ => true
  | _ :: _, [] => false
  | a :: as, b :: bs => if a < b then true else if b < a then false else charListLt as bs

/-- Stable insertion, keeping equal keys in their original order. -/
def insertByKey (x : String × String) : List (String × String) → List (String × String)
  | [] => [x]
  | y :: ys => if charListLt x.1.data y.1.data then x :: y :: ys else y :: insertByKey x ys

/-- Stable sort by key: Go's `Encode` walks the keys in sorted order and
each key's values in slice order. -/
def sortByKey (q : List (String × String)) : List (String × String) :=
  q.foldl (fun acc x => insertByKey x acc) []

/-- Go `Values.Encode`: escape and join `k=v` with `&`, keys sorted. -/
def valuesEncode (q : List (String × String)) : String :=
  String.mk (joinAmp ((sortByKey q).map
    (fun p => (queryEscape p.1).data ++ '=' :: (queryEscape p.2).data)))
where
  joinAmp : List (List Char) → List Char
    | [] => []
    | [x] => x
    | x :: xs => x ++ '&' :: joinAmp xs

/-! ### The `Locator` (src/normurl.go) -/

/-- `Locator` from src/normurl.go: the parsed representation and the file
flag. -/
structure Locator where
  url : URL
  file : Bool
deriving Repr, DecidableEq

/-- The structured serialization form (`jsonLocator` in src/normurl.go);
a `Url` field absent from the JSON object decodes to the zero value `""`. -/
structure jsonLocator where
  Url : String := ""
  File : Bool := false
deriving Repr, DecidableEq

/-- `New` (src/normurl.go:86): parse; an empty scheme requires the raw
input to be an absolute native path and wraps the representation
unchanged as a file locator; scheme `file` clears the scheme and keeps
the path (the Windows transformation is dead code on this POSIX host);
`http`/`https` wrap unchanged as remote; anything else is rejected. -/
def New (s : String) : Except String Locator :=
  match parse s with
  | .error e => .error e
  | .ok u =>
    if u.scheme = "" then
      if !(isAbs s) then .error "expected absolute path"
      else .ok ⟨u, true⟩
    else if u.scheme = "file" then
      let path := u.path
      .ok ⟨{ u with scheme := "", path := path }, true⟩
    else if u.scheme ≠ "http" ∧ u.scheme ≠ "https" then
      .error ("unsupported scheme " ++ u.scheme)
    else .ok ⟨u, false⟩

/-- `Locator.String` (src/normurl.go:62). -/
def Locator.String (l : Locator) : String := l.url.string

/-- `Locator.IsFilepath` (src/normurl.go:81). -/
def IsFilepath (l : Locator) : Bool := l.file

/-- `Resolve` (src/normurl.go:125): parse the reference; a reference with
a scheme degenerates to `New`; against a file base, an absolute reference
path wraps the parsed reference unchanged, and a relative one joins it
onto the base path's directory into a fresh representation; against a
remote base, standard URL reference resolution. -/
def Resolve (base : Locator) (s : String) : Except String Locator :=
  match parse s with
  | .error e => .error e
  | .ok u =>
    if u.scheme ≠ "" then New s
    else if base.file then
      if isAbs s then .ok ⟨u, true⟩
      else
        let baseDir := pathDir base.url.path
        let path := pathJoin baseDir s
        .ok ⟨{ path := path }, true⟩
    else .ok ⟨resolveReference base.url u, false⟩

/-- `Resolve` with the receiver state made explicit: the method reads the
base and never assigns to its fields, so the post-state is the input. -/
def ResolveSt (base : Locator) (s : String) : Locator × Except String Locator :=
  (base, Resolve base s)

/-- `SetQueryParam` (src/normurl.go:67): no-op on file locators;
otherwise decode the query, set or (on empty value) delete the
parameter, re-encode, and store the result back. -/
def SetQueryParam (l : Locator) (param value : String) : Locator :=
  if l.file then l
  else
    let query := parseQueryList l.url.rawQuery.data
    let query := if value ≠ "" then valuesSet query param value else valuesDel query param
    ⟨{ l.url with rawQuery := valuesEncode query }, l.file⟩

/-- `MarshalJSON` (src/normurl.go:54), at the structured level (the JSON
byte encoding of two plain fields is out of the model's scope). -/
def MarshalJSON (l : Locator) : jsonLocator :=
  { Url := l.String, File := l.file }

/-- `UnmarshalJSON` (src/normurl.go:26), receiver-passing: the input is
`none` for data `json.Unmarshal` rejects, `some jl` for a decoded
structured form.  Returns the receiver's post-state and the error; every
early return leaves the receiver unchanged. -/
def UnmarshalJSON (l : Locator) (data : Option jsonLocator) :
    Locator × Option String :=
  match data with
  | none => (l, some "invalid JSON")
  | some jl =>
    if jl.Url = "" then (l, some "missing url")
    else
      match New jl.Url with
      | .error e => (l, some e)
      | .ok nl =>
        if jl.File ≠ nl.file then (l, some "file flag mismatch")
        else (⟨nl.url, jl.File⟩, none)

/-! ### Theorems -/

/-- Claim C4: `New` fails exactly as the spec's taxonomy prescribes for
well-formed URL syntax: a scheme-less input that is not an absolute
native path is rejected with the invalid-path error "expected absolute
path", and an input whose parsed scheme lies outside
file/http/https (and is non-empty) is rejected with the
unsupported-scheme error naming the offending scheme. -/
theorem new_error_taxonomy :
    (∀ (s : String) (u : URL), parse s = .ok u → u.scheme = "" →
      isAbs s = false → New s = .error "expected absolute path") ∧
    (∀ (s : String) (u : URL), parse s = .ok u → u.scheme ≠ "" →
      u.scheme ≠ "file" → u.scheme ≠ "http" → u.scheme ≠ "https" →
      New s = .error ("unsupported scheme " ++ u.scheme)) := by
  constructor
  · intro s u hp hsch habs
    simp [New, hp, hsch, habs]
  · intro s u hp h0 h1 h2 h3
    simp [New, hp, h0, h1, h2, h3]

/-- Witness for C4: the two error branches at concrete inputs, including
the spec's own `ftp://host/path` example. -/
theorem new_error_taxonomy_witness :
    New "relative/path" = .error "expected absolute path" ∧
    New "ftp://host/path" = .error ("unsupported scheme " ++ "ftp") := by
  constructor
  · exact new_error_taxonomy.1 "relative/path" { path := "relative/path" }
      (by decide) rfl (by decide)
  · exact new_error_taxonomy.2 "ftp://host/path"
      { scheme := "ftp", host := "host", path := "/path" }
      (by decide) (by decide) (by decide) (by decide) (by decide)

/-- Claim C5: when the reference string parses with a non-empty scheme,
`Resolve` returns exactly `New s`, ignoring the base; in particular
resolving `https://ex.com/x` against any file locator yields that remote
locator. -/
theorem resolve_absolute_reference_wins :
    (∀ (base : Locator) (s : String) (u : URL), parse s = .ok u →
      u.scheme ≠ "" → Resolve base s = New s) ∧
    (∀ base : Locator, base.file = true →
      Resolve base "https://ex.com/x" =
        .ok ⟨{ scheme := "https", host := "ex.com", path := "/x" }, false⟩) := by
  constructor
  · intro base s u hp hs
    simp [Resolve, hp, hs]
  · intro base _
    rfl

/-- Witness for C5 at a concrete file base and remote reference. -/
theorem resolve_absolute_reference_wins_witness :
    Resolve ⟨{ path := "/a/b" }, true⟩ "https://ex.com/x" =
      .ok ⟨{ scheme := "https", host := "ex.com", path := "/x" }, false⟩ :=
  resolve_absolute_reference_wins.2 ⟨{ path := "/a/b" }, true⟩ rfl

/-- Claim C6: resolving a scheme-less, non-absolute reference against a
file base succeeds with a file locator whose path is the native join of
the base path's directory with the reference (with `.`/`..` and
redundant-separator normalization) and all other parsed fields empty;
the spec's example `/a/b/c.txt` + `d.txt` = `/a/b/d.txt`, and a
normalizing instance. -/
theorem resolve_file_relative_join :
    (∀ (base : Locator) (s : String) (u : URL), base.file = true →
      parse s = .ok u → u.scheme = "" → isAbs s = false →
      Resolve base s = .ok ⟨{ path := pathJoin (pathDir base.url.path) s }, true⟩) ∧
    (New "/a/b/c.txt" = .ok ⟨{ path := "/a/b/c.txt" }, true⟩ ∧
     Resolve ⟨{ path := "/a/b/c.txt" }, true⟩ "d.txt" =
       .ok ⟨{ path := "/a/b/d.txt" }, true⟩ ∧
     Locator.String ⟨{ path := "/a/b/d.txt" }, true⟩ = "/a/b/d.txt" ∧
     Resolve ⟨{ path := "/a/b/c.txt" }, true⟩ "../x/.//y.txt" =
       .ok ⟨{ path := "/a/x/y.txt" }, true⟩) := by
  refine ⟨?_, rfl, rfl, rfl, rfl⟩
  intro base s u hf hp hsch habs
  simp [Resolve, hp, hsch, hf, habs]

/-- Witness for C6: the universal branch applied at the spec's example. -/
theorem resolve_file_relative_join_witness :
    Resolve ⟨{ path := "/a/b/c.txt" }, true⟩ "d.txt" =
      .ok ⟨{ path := pathJoin (pathDir "/a/b/c.txt") "d.txt" }, true⟩ :=
  resolve_file_relative_join.1 ⟨{ path := "/a/b/c.txt" }, true⟩ "d.txt"
    { path := "d.txt" } rfl (by decide) rfl (by decide)

/-- Claim C8: `UnmarshalJSON` fails with the missing-field error on an
absent or empty `Url`, fails with the inconsistent-state error when the
`File` flag disagrees with the kind recomputed by full construction, and
otherwise adopts the reconstructed value and kind. -/
theorem unmarshal_error_taxonomy :
    (∀ (l : Locator) (jl : jsonLocator), jl.Url = "" →
      UnmarshalJSON l (some jl) = (l, some "missing url")) ∧
    (∀ (l : Locator) (jl : jsonLocator) (nl : Locator), jl.Url ≠ "" →
      New jl.Url = .ok nl → jl.File ≠ nl.file →
      UnmarshalJSON l (some jl) = (l, some "file flag mismatch")) ∧
    (∀ (l : Locator) (jl : jsonLocator) (nl : Locator), jl.Url ≠ "" →
      New jl.Url = .ok nl → jl.File = nl.file →
      UnmarshalJSON l (some jl) = (⟨nl.url, jl.File⟩, none)) := by
  refine ⟨?_, ?_, ?_⟩
  · intro l jl h
    simp [UnmarshalJSON, h]
  · intro l jl nl h0 h1 h2
    simp [UnmarshalJSON, h0, h1, h2]
  · intro l jl nl h0 h1 h2
    simp [UnmarshalJSON, h0, h1, h2]

/-- Witness for C8: the spec's two rejection examples
(`[shape Url absent, File true]` and `[Url "/a/b", File false]`) and a
successful adoption. -/
theorem unmarshal_error_taxonomy_witness :
    UnmarshalJSON ⟨{}, false⟩ (some { File := true }) =
      (⟨{}, false⟩, some "missing url") ∧
    UnmarshalJSON ⟨{}, false⟩ (some { Url := "/a/b", File := false }) =
      (⟨{}, false⟩, some "file flag mismatch") ∧
    UnmarshalJSON ⟨{}, false⟩ (some { Url := "/a/b", File := true }) =
      (⟨{ path := "/a/b" }, true⟩, none) := by
  refine ⟨?_, ?_, ?_⟩
  · exact unmarshal_error_taxonomy.1 ⟨{}, false⟩ { File := true } rfl
  · exact unmarshal_error_taxonomy.2.1 ⟨{}, false⟩ { Url := "/a/b", File := false }
      ⟨{ path := "/a/b" }, true⟩ (by decide) rfl (by decide)
  · exact unmarshal_error_taxonomy.2.2 ⟨{}, false⟩ { Url := "/a/b", File := true }
      ⟨{ path := "/a/b" }, true⟩ (by decide) rfl rfl

/-- Claim C9: failing operations are atomic in their receiver: a failing
`Resolve` leaves the base unchanged (the method never assigns to it),
and a failing `UnmarshalJSON` (malformed data, missing url, construction
failure, flag mismatch) leaves the receiver unchanged. -/
theorem failure_atomicity :
    (∀ (l : Locator) (d : Option jsonLocator),
      (UnmarshalJSON l d).2 ≠ none → (UnmarshalJSON l d).1 = l) ∧
    (∀ (base : Locator) (s e : String),
      Resolve base s = .error e → (ResolveSt base s).1 = base) := by
  constructor
  · intro l d h
    match d with
    | none => rfl
    | some jl =>
      by_cases h0 : jl.Url = ""
      · simp [UnmarshalJSON, h0]
      · cases h1 : New jl.Url with
        | error e => simp [UnmarshalJSON, h0, h1]
        | ok nl =>
          by_cases h2 : jl.File = nl.file
          · exfalso
            apply h
            simp [UnmarshalJSON, h0, h1, h2]
          · simp [UnmarshalJSON, h0, h1, h2]
  · intro base s e _
    rfl

/-- Witness for C9: a failing unmarshal and a failing resolve leave the
receivers untouched. -/
theorem failure_atomicity_witness :
    (UnmarshalJSON ⟨{ path := "/z" }, true⟩ (some { Url := "nope" })).1 =
      ⟨{ path := "/z" }, true⟩ ∧
    (ResolveSt ⟨{ path := "/z" }, true⟩ "ftp://h/p").1 =
      ⟨{ path := "/z" }, true⟩ := by
  constructor
  · exact failure_atomicity.1 ⟨{ path := "/z" }, true⟩ (some { Url := "nope" })
      (by decide)
  · exact failure_atomicity.2 ⟨{ path := "/z" }, true⟩ "ftp://h/p"
      ("unsupported scheme " ++ "ftp") (by decide)

/-- Claim C10: on a remote locator, `SetQueryParam` changes at most the
query component: scheme, host, path and fragment are identical before and
after (as are the opaque part and the file flag). -/
theorem setQueryParam_frame :
    ∀ (l : Locator) (p v : String), l.file = false →
      (SetQueryParam l p v).url.scheme = l.url.scheme ∧
      (SetQueryParam l p v).url.host = l.url.host ∧
      (SetQueryParam l p v).url.path = l.url.path ∧
      (SetQueryParam l p v).url.fragment = l.url.fragment ∧
      (SetQueryParam l p v).url.opq = l.url.opq ∧
      (SetQueryParam l p v).file = l.file := by
  intro l p v hf
  simp [SetQueryParam, hf]

/-- Witness for C10 at a concrete remote locator. -/
theorem setQueryParam_frame_witness :
    (SetQueryParam ⟨{ scheme := "https", host := "ex.com", path := "/p" }, false⟩
        "k" "v").url.path = "/p" :=
  (setQueryParam_frame ⟨{ scheme := "https", host := "ex.com", path := "/p" }, false⟩
    "k" "v" rfl).2.2.1

/-- Claim C7: `SetQueryParam` is a silent no-op on every file locator; on
a remote locator a non-empty value insert-or-replaces the parameter and
an empty value deletes it, the full query re-encoded deterministically
and stored back; with the spec's set/delete round trip at a concrete
remote locator. -/
theorem setQueryParam_contract :
    (∀ (l : Locator) (p v : String), l.file = true → SetQueryParam l p v = l) ∧
    (∀ (l : Locator) (p v : String), l.file = false → v ≠ "" →
      SetQueryParam l p v = ⟨{ l.url with rawQuery := valuesEncode (valuesSet (parseQueryList l.url.rawQuery.data) p v) }, false⟩) ∧
    (∀ (l : Locator) (p : String), l.file = false →
      SetQueryParam l p "" = ⟨{ l.url with rawQuery := valuesEncode (valuesDel (parseQueryList l.url.rawQuery.data) p) }, false⟩) ∧
    (Locator.String (SetQueryParam ⟨{ path := "/a/b" }, true⟩ "k" "v") = "/a/b" ∧
     Locator.String (SetQueryParam
        ⟨{ scheme := "https", host := "ex.com", path := "/p" }, false⟩ "k" "v") =
       "https://ex.com/p?k=v" ∧
     Locator.String (SetQueryParam (SetQueryParam
        ⟨{ scheme := "https", host := "ex.com", path := "/p" }, false⟩ "k" "v")
        "k" "") = "https://ex.com/p") := by
  refine ⟨?_, ?_, ?_, rfl, rfl, rfl⟩
  · intro l p v hf
    simp [SetQueryParam, hf]
  · intro l p v hf hv
    simp [SetQueryParam, hf, hv]
  · intro l p hf
    simp [SetQueryParam, hf]

/-- Witness for C7: the no-op and replace branches at concrete locators. -/
theorem setQueryParam_contract_witness :
    SetQueryParam ⟨{ path := "/a/b" }, true⟩ "k" "v" = ⟨{ path := "/a/b" }, true⟩ ∧
    SetQueryParam ⟨{ scheme := "https", host := "ex.com", path := "/p", rawQuery := "k=old" }, false⟩ "k" "v" =
      ⟨{ scheme := "https", host := "ex.com", path := "/p", rawQuery := valuesEncode (valuesSet (parseQueryList ("k=old" : String).data) "k" "v") }, false⟩ := by
  constructor
  · exact setQueryParam_contract.1 ⟨{ path := "/a/b" }, true⟩ "k" "v" rfl
  · exact setQueryParam_contract.2.1
      ⟨{ scheme := "https", host := "ex.com", path := "/p", rawQuery := "k=old" }, false⟩
      "k" "v" rfl (by decide)

/-- Claim C2: for a string `s` in canonical form (serializing its parse
reproduces it) that `New` accepts, the constructed locator's canonical
string form is `s` again, except for the documented scheme-stripping of
`file:` URIs; and on POSIX, `file:///tmp/x` and `/tmp/x` construct
locators with the identical canonical string form `/tmp/x`. -/
theorem new_string_roundtrip :
    (∀ (s : String) (u : URL) (l : Locator), parse s = .ok u →
      URL.string u = s → New s = .ok l → u.scheme ≠ "file" →
      Locator.String l = s) ∧
    (New "file:///tmp/x" = .ok ⟨{ path := "/tmp/x" }, true⟩ ∧
     New "/tmp/x" = .ok ⟨{ path := "/tmp/x" }, true⟩ ∧
     Locator.String ⟨{ path := "/tmp/x" }, true⟩ = "/tmp/x") := by
  refine ⟨?_, rfl, rfl, rfl⟩
  intro s u l hp hcan hn hf
  rw [New, hp] at hn
  simp only [] at hn
  split at hn
  · split at hn
    · exact absurd hn (by simp)
    · injection hn with hn
      subst hn
      exact hcan
  · split at hn
    · exact absurd hn (by simp)
    · injection hn with hn
      subst hn
      exact hcan

/-- Witness for C2 at a canonical remote string. -/
theorem new_string_roundtrip_witness :
    Locator.String ⟨{ scheme := "https", host := "ex.com", path := "/x" }, false⟩ =
      "https://ex.com/x" :=
  new_string_roundtrip.1 "https://ex.com/x"
    { scheme := "https", host := "ex.com", path := "/x" }
    ⟨{ scheme := "https", host := "ex.com", path := "/x" }, false⟩
    (by decide) (by decide) (by decide) (by decide)

/-- Counterexample to claim C3 as stated: the reachable locator
`New "file:"` has canonical string form `""`, so marshalling it and
unmarshalling the result fails with the missing-field error instead of
succeeding. -/
theorem marshal_roundtrip_cex :
    New "file:" = .ok ⟨{}, true⟩ ∧
    MarshalJSON ⟨{}, true⟩ = { Url := "", File := true } ∧
    (UnmarshalJSON ⟨{}, true⟩ (some (MarshalJSON ⟨{}, true⟩))).2 =
      some "missing url" :=
  ⟨rfl, rfl, rfl⟩

/-- Claim C3 (amended): for every locator `l` whose canonical string form
is accepted by full construction reproducing `l`'s kind and canonical
string, `UnmarshalJSON` applied to `MarshalJSON l` succeeds and yields a
locator with the same kind and the same canonical string form. -/
theorem marshal_roundtrip_amended :
    ∀ (l nl : Locator), New (Locator.String l) = .ok nl → nl.file = l.file →
      Locator.String nl = Locator.String l →
      UnmarshalJSON l (some (MarshalJSON l)) = (⟨nl.url, l.file⟩, none) ∧
      (⟨nl.url, l.file⟩ : Locator).file = l.file ∧
      Locator.String (⟨nl.url, l.file⟩ : Locator) = Locator.String l := by
  intro l nl h1 h2 h3
  have hne : Locator.String l ≠ "" := by
    intro h0
    rw [h0] at h1
    rw [show New "" = Except.error "expected absolute path" from rfl] at h1
    exact Except.noConfusion h1
  refine ⟨?_, rfl, h3⟩
  have hfl : ¬ ((MarshalJSON l).File ≠ nl.file) := by
    simp [MarshalJSON, h2]
  show UnmarshalJSON l (some (MarshalJSON l)) = (⟨nl.url, l.file⟩, none)
  rw [UnmarshalJSON]
  rw [if_neg (by simpa [MarshalJSON] using hne)]
  rw [show (MarshalJSON l).Url = Locator.String l from rfl, h1]
  simp only []
  rw [if_neg hfl]
  rw [show (MarshalJSON l).File = l.file from rfl]

/-- Witness for C3 (amended) at a concrete file locator. -/
theorem marshal_roundtrip_amended_witness :
    UnmarshalJSON ⟨{ path := "/a/b" }, true⟩
        (some (MarshalJSON ⟨{ path := "/a/b" }, true⟩)) =
      (⟨{ path := "/a/b" }, true⟩, none) :=
  (marshal_roundtrip_amended ⟨{ path := "/a/b" }, true⟩ ⟨{ path := "/a/b" }, true⟩
    (by decide) rfl rfl).1

/-- The kind/scheme invariant of the data model (spec section 3), in the
form that survives the counterexample to C1. -/
def Inv (l : Locator) : Prop :=
  (l.file = true → l.url.scheme = "") ∧
  (l.file = false → l.url.scheme = "http" ∨ l.url.scheme = "https")

/-- Every locator `New` produces satisfies the kind/scheme invariant. -/
theorem New_inv {s : String} {l : Locator} (h : New s = .ok l) : Inv l := by
  rw [New] at h
  cases hp : parse s with
  | error e => rw [hp] at h; exact absurd h (by simp)
  | ok u =>
    rw [hp] at h
    simp only [] at h
    split at h
    · rename_i hsch
      split at h
      · exact absurd h (by simp)
      · injection h with h
        subst h
        exact ⟨fun _ => hsch, fun hf => by simp at hf⟩
    · split at h
      · injection h with h
        subst h
        exact ⟨fun _ => rfl, fun hf => by simp at hf⟩
      · split at h
        · exact absurd h (by simp)
        · rename_i hs0 hs1 hs2
          injection h with h
          subst h
          refine ⟨fun hf => by simp at hf, fun _ => ?_⟩
          rcases not_and_or.mp hs2 with h | h
          · exact Or.inl (not_not.mp h)
          · exact Or.inr (not_not.mp h)

/-- `resolveReference` with a scheme-less reference keeps the base's
scheme. -/
theorem resolveReference_scheme (b r : URL) (hr : r.scheme = "") :
    (resolveReference b r).scheme = b.scheme := by
  rw [resolveReference]
  simp only [hr]
  split
  · rfl
  · split
    · rfl
    · split
      · split <;> rfl
      · rfl

/-- Every locator `Resolve` produces from an invariant-satisfying base
satisfies the kind/scheme invariant. -/
theorem Resolve_inv {base : Locator} {s : String} {l : Locator}
    (hb : Inv base) (h : Resolve base s = .ok l) : Inv l := by
  rw [Resolve] at h
  cases hp : parse s with
  | error e => rw [hp] at h; exact absurd h (by simp)
  | ok u =>
    rw [hp] at h
    simp only [] at h
    split at h
    · exact New_inv h
    · rename_i hsch
      split at h
      · rename_i hbf
        split at h
        · injection h with h
          subst h
          exact ⟨fun _ => not_ne_iff.mp hsch, fun hf => by simp at hf⟩
        · injection h with h
          subst h
          exact ⟨fun _ => rfl, fun hf => by simp at hf⟩
      · rename_i hbf
        injection h with h
        subst h
        refine ⟨fun hf => by simp at hf, fun _ => ?_⟩
        rw [resolveReference_scheme base.url u (not_ne_iff.mp hsch)]
        exact hb.2 (by simpa using hbf)

/-- Every locator a successful `UnmarshalJSON` stores satisfies the
kind/scheme invariant (the receiver is immaterial: the stored value comes
from `New`). -/
theorem Unmarshal_inv {l0 l : Locator} {d : Option jsonLocator}
    (h2 : (UnmarshalJSON l0 d).2 = none) (h1 : (UnmarshalJSON l0 d).1 = l) :
    Inv l := by
  match d with
  | none => simp [UnmarshalJSON] at h2
  | some jl =>
    by_cases h0 : jl.Url = ""
    · simp [UnmarshalJSON, h0] at h2
    · cases hn : New jl.Url with
      | error e => simp [UnmarshalJSON, h0, hn] at h2
      | ok nl =>
        by_cases hfl : jl.File = nl.file
        · have hinv := New_inv hn
          simp [UnmarshalJSON, h0, hn, hfl] at h1
          subst h1
          exact hinv
        · simp [UnmarshalJSON, h0, hn, hfl] at h2

/-- `SetQueryParam` preserves the kind/scheme invariant: it touches only
the raw query. -/
theorem SetQueryParam_inv {l : Locator} (p v : String) (h : Inv l) :
    Inv (SetQueryParam l p v) := by
  rw [SetQueryParam]
  split
  · exact h
  · exact ⟨h.1, h.2⟩

/-- The locators reachable through the package's operations: produced by
`New`, by `Resolve` from a reachable base, stored by a successful
`UnmarshalJSON` (into any receiver), or produced by `SetQueryParam` on a
reachable locator. -/
inductive Reachable : Locator → Prop
  | new (s : String) (l : Locator) (h : New s = .ok l) : Reachable l
  | res (base : Locator) (s : String) (l : Locator) (hb : Reachable base)
      (h : Resolve base s = .ok l) : Reachable l
  | unm (l0 : Locator) (d : Option jsonLocator) (l : Locator)
      (h2 : (UnmarshalJSON l0 d).2 = none) (h1 : (UnmarshalJSON l0 d).1 = l) :
      Reachable l
  | setq (l0 : Locator) (p v : String) (hb : Reachable l0) :
      Reachable (SetQueryParam l0 p v)

/-- Counterexample to claim C1 as stated: `New "file:"` succeeds,
producing a file locator whose parsed path is empty, hence not an
absolute path in the host convention (the scheme part of the invariant
does hold; only path absoluteness fails). -/
theorem locator_invariant_cex :
    New "file:" = .ok ⟨{}, true⟩ ∧ ({} : URL).scheme = "" ∧
    ({} : URL).path = "" ∧ isAbs (({} : URL).path) = false :=
  ⟨rfl, rfl, rfl, rfl⟩

/-- Claim C1 (amended): every reachable locator satisfies the scheme part
of the invariant: a file locator's parsed scheme is empty, and a remote
locator's parsed scheme is http or https.  (Path absoluteness fails on
degenerate inputs such as `file:`, and locators resolved from such bases
can even carry relative paths, so no path clause is inductive.) -/
theorem locator_invariant_amended :
    ∀ l : Locator, Reachable l →
      (l.file = true → l.url.scheme = "") ∧
      (l.file = false → l.url.scheme = "http" ∨ l.url.scheme = "https") := by
  intro l h
  induction h with
  | new s l h => exact New_inv h
  | res base s l hb h ih => exact Resolve_inv ih h
  | unm l0 d l h2 h1 => exact Unmarshal_inv h2 h1
  | setq l0 p v hb ih => exact SetQueryParam_inv _ _ ih

/-- Witness for C1 (amended): the invariant evaluated on the concrete
reachable locator `New "/tmp/x"`. -/
theorem locator_invariant_amended_witness :
    (⟨{ path := "/tmp/x" }, true⟩ : Locator).url.scheme = "" :=
  (locator_invariant_amended ⟨{ path := "/tmp/x" }, true⟩
    (Reachable.new "/tmp/x" ⟨{ path := "/tmp/x" }, true⟩ (by decide))).1 rfl

end Normurl
